import Mathlib

/-!
Verification development for `generate_aggregate_index.py`, a static-dashboard
generator over repository-traffic CSV snapshots.  The Python source is embedded
shallowly: pure functions become Lean functions, Python `int` becomes `Int`,
Python `float` arithmetic is modelled by exact rationals `ℚ`, CSV files become
lists of row structures, and the ambient `datetime.utcnow()` instant is passed
explicitly as a `now` parameter.  Fallible operations return `Option`/`Except`.
-/

set_option maxHeartbeats 1000000

/-- A naive (timezone-free) calendar date/time, the result type of the
Python `datetime.strptime` calls in `parse_date`.  Comparison of Python
`datetime` objects is lexicographic on the components. -/
structure DateTime where
  year : Nat
  month : Nat
  day : Nat
  hour : Nat
  minute : Nat
  second : Nat
deriving DecidableEq, Repr

/-- Python `datetime` `<=` : lexicographic on (year, month, day, hour, minute, second). -/
def dleb (a b : DateTime) : Bool :=
  decide (a.year < b.year) ||
    (decide (a.year = b.year) &&
      (decide (a.month < b.month) ||
        (decide (a.month = b.month) &&
          (decide (a.day < b.day) ||
            (decide (a.day = b.day) &&
              (decide (a.hour < b.hour) ||
                (decide (a.hour = b.hour) &&
                  (decide (a.minute < b.minute) ||
                    (decide (a.minute = b.minute) &&
                      decide (a.second ≤ b.second))))))))))

/-- Python `datetime` `<` : strict lexicographic comparison. -/
def dltb (a b : DateTime) : Bool :=
  decide (a.year < b.year) ||
    (decide (a.year = b.year) &&
      (decide (a.month < b.month) ||
        (decide (a.month = b.month) &&
          (decide (a.day < b.day) ||
            (decide (a.day = b.day) &&
              (decide (a.hour < b.hour) ||
                (decide (a.hour = b.hour) &&
                  (decide (a.minute < b.minute) ||
                    (decide (a.minute = b.minute) &&
                      decide (a.second < b.second))))))))))

/-- Numeric value of a decimal digit character. -/
def dv (c : Char) : Nat := c.toNat - 48

/-- `str.replace("+00:00", "")`: delete every (non-overlapping, left-to-right)
occurrence of the six characters `+00:00`. -/
def stripPat : List Char → List Char
  | '+' :: '0' :: '0' :: ':' :: '0' :: '0' :: rest => stripPat rest
  | c :: rest => c :: stripPat rest
  | [] => []

/-! ### `strptime` field matchers

CPython's `_strptime` compiles each directive to a regex fragment:
`%Y ↦ \d\d\d\d`, `%m ↦ 1[0-2]|0[1-9]|[1-9]`, `%d ↦ 3[01]|[12]\d|0[1-9]|[1-9]`,
`%H ↦ 2[0-3]|[0-1]\d|\d`, `%M,%S ↦ [0-5]\d|\d`, literal characters to
themselves, and whitespace in the format to `\s+`.  Each matcher below returns
the candidate `(value, rest)` pairs in the regex engine's preference order;
the overall match is the backtracking search over those candidates. -/

def yearC : List Char → List (Nat × List Char)
  | a :: b :: c :: d :: r =>
    if a.isDigit ∧ b.isDigit ∧ c.isDigit ∧ d.isDigit then
      [(((dv a * 10 + dv b) * 10 + dv c) * 10 + dv d, r)]
    else []
  | _ => []

def monthC (cs : List Char) : List (Nat × List Char) :=
  (match cs with
   | '1' :: c :: r => if '0' ≤ c ∧ c ≤ '2' then [(10 + dv c, r)] else []
   | _ => []) ++
  (match cs with
   | '0' :: c :: r => if '1' ≤ c ∧ c ≤ '9' then [(dv c, r)] else []
   | _ => []) ++
  (match cs with
   | c :: r => if '1' ≤ c ∧ c ≤ '9' then [(dv c, r)] else []
   | _ => [])

def dayC (cs : List Char) : List (Nat × List Char) :=
  (match cs with
   | '3' :: c :: r => if c = '0' ∨ c = '1' then [(30 + dv c, r)] else []
   | _ => []) ++
  (match cs with
   | c :: d :: r => if (c = '1' ∨ c = '2') ∧ d.isDigit then [(dv c * 10 + dv d, r)] else []
   | _ => []) ++
  (match cs with
   | '0' :: c :: r => if '1' ≤ c ∧ c ≤ '9' then [(dv c, r)] else []
   | _ => []) ++
  (match cs with
   | c :: r => if '1' ≤ c ∧ c ≤ '9' then [(dv c, r)] else []
   | _ => [])

def hourC (cs : List Char) : List (Nat × List Char) :=
  (match cs with
   | '2' :: c :: r => if '0' ≤ c ∧ c ≤ '3' then [(20 + dv c, r)] else []
   | _ => []) ++
  (match cs with
   | c :: d :: r => if (c = '0' ∨ c = '1') ∧ d.isDigit then [(dv c * 10 + dv d, r)] else []
   | _ => []) ++
  (match cs with
   | c :: r => if c.isDigit then [(dv c, r)] else []
   | _ => [])

/-- `%M` / `%S` : `[0-5]\d|\d`. -/
def msC (cs : List Char) : List (Nat × List Char) :=
  (match cs with
   | c :: d :: r => if '0' ≤ c ∧ c ≤ '5' ∧ d.isDigit then [(dv c * 10 + dv d, r)] else []
   | _ => []) ++
  (match cs with
   | c :: r => if c.isDigit then [(dv c, r)] else []
   | _ => [])

/-- Literal character in the format string. -/
def litC (ch : Char) : List Char → List (Unit × List Char)
  | c :: r => if c = ch then [((), r)] else []
  | [] => []

/-- A run of literal characters (used for the `+00:00` suffix of the second
format). -/
def litsC : List Char → List Char → List (Unit × List Char)
  | [], cs => [((), cs)]
  | p :: ps, c :: cs => if c = p then litsC ps cs else []
  | _ :: _, [] => []

def isWS (c : Char) : Bool :=
  c = ' ' ∨ c = '\t' ∨ c = '\n' ∨ c = '\x0d' ∨ c = '\x0b' ∨ c = '\x0c'

/-- Whitespace in the format string: `\s+` (greedy). -/
def wsC (cs : List Char) : List (Unit × List Char) :=
  if cs.takeWhile isWS = [] then [] else [((), cs.dropWhile isWS)]

/-- Backtracking match of `%Y-%m-%d %H:%M:%S` followed by the literal
characters `tail` (so `tail = []` gives the first/third format and
`tail = "+00:00".data` the second).  Mirrors the regex engine: alternatives
are tried in preference order and the first complete match of the pattern is
returned together with the unconsumed remainder. -/
def matchCore (tail : List Char) (cs : List Char) :
    Option ((Nat × Nat × Nat × Nat × Nat × Nat) × List Char) :=
  (yearC cs).findSome? fun (y, cs) =>
  (litC '-' cs).findSome? fun (_, cs) =>
  (monthC cs).findSome? fun (mo, cs) =>
  (litC '-' cs).findSome? fun (_, cs) =>
  (dayC cs).findSome? fun (d, cs) =>
  (wsC cs).findSome? fun (_, cs) =>
  (hourC cs).findSome? fun (h, cs) =>
  (litC ':' cs).findSome? fun (_, cs) =>
  (msC cs).findSome? fun (mi, cs) =>
  (litC ':' cs).findSome? fun (_, cs) =>
  (msC cs).findSome? fun (s, cs) =>
  (litsC tail cs).findSome? fun (_, cs) =>
  some ((y, mo, d, h, mi, s), cs)

/-- Backtracking match of the bare-date format `%Y-%m-%d`; missing time
fields default to `0` as in `strptime`. -/
def matchDateOnly (cs : List Char) :
    Option ((Nat × Nat × Nat × Nat × Nat × Nat) × List Char) :=
  (yearC cs).findSome? fun (y, cs) =>
  (litC '-' cs).findSome? fun (_, cs) =>
  (monthC cs).findSome? fun (mo, cs) =>
  (litC '-' cs).findSome? fun (_, cs) =>
  (dayC cs).findSome? fun (d, cs) =>
  some ((y, mo, d, 0, 0, 0), cs)

def isLeap (y : Nat) : Bool := y % 4 = 0 ∧ (y % 100 ≠ 0 ∨ y % 400 = 0)

def daysInMonth (y m : Nat) : Nat :=
  if m = 1 ∨ m = 3 ∨ m = 5 ∨ m = 7 ∨ m = 8 ∨ m = 10 ∨ m = 12 then 31
  else if m = 2 then (if isLeap y then 29 else 28)
  else 30

/-- Validation performed by the `datetime` constructor (`MINYEAR = 1`,
`MAXYEAR = 9999`, day checked against the month length, time fields checked
against their ranges); a failure raises `ValueError`, caught by `parse_date`'s
loop. -/
def mkDT (y mo d h mi s : Nat) : Option DateTime :=
  if 1 ≤ y ∧ y ≤ 9999 ∧ 1 ≤ mo ∧ mo ≤ 12 ∧ 1 ≤ d ∧ d ≤ daysInMonth y mo ∧
      h ≤ 23 ∧ mi ≤ 59 ∧ s ≤ 59 then
    some ⟨y, mo, d, h, mi, s⟩
  else none

/-- One `strptime(data, fmt)` attempt: match the pattern, then fail on
unconverted remaining data, then construct (and validate) the `datetime`. -/
def tryFmt (m : List Char → Option ((Nat × Nat × Nat × Nat × Nat × Nat) × List Char))
    (cs : List Char) : Option DateTime :=
  match m cs with
  | some ((y, mo, d, h, mi, s), rest) => if rest = [] then mkDT y mo d h mi s else none
  | none => none

def tzChars : List Char := ['+', '0', '0', ':', '0', '0']

/-- Embedding of `parse_date` (source lines 49–64).  The source deletes every
`"+00:00"` from the input and strips `%z` from each format, then tries the
four formats in order, returning the first success; the effective formats are
therefore `%Y-%m-%d %H:%M:%S` (twice), the dead-literal variant
`%Y-%m-%d %H:%M:%S+00:00`, and `%Y-%m-%d`. -/
def parse_date (str : String) : Option DateTime :=
  if str = "" then none
  else
    match tryFmt (matchCore []) (stripPat str.data) with
    | some dt => some dt
    | none =>
      match tryFmt (matchCore tzChars) (stripPat str.data) with
      | some dt => some dt
      | none =>
        match tryFmt (matchCore []) (stripPat str.data) with
        | some dt => some dt
        | none => tryFmt matchDateOnly (stripPat str.data)

/-! ### Python `int()` on strings, and the `row.get(col, 0) or 0` idiom -/

def digitsUAux (acc : Nat) : List Char → Option Nat
  | [] => some acc
  | '_' :: c :: r => if c.isDigit then digitsUAux (acc * 10 + dv c) r else none
  | c :: r => if c.isDigit then digitsUAux (acc * 10 + dv c) r else none

/-- Digit run with the single-underscore-between-digits tolerance of Python's
`int()` literal grammar; the first character must be a digit. -/
def digitsU : List Char → Option Nat
  | [] => none
  | c :: r => if c.isDigit then digitsUAux (dv c) r else none

/-- `int(s)` for a decimal string: optional surrounding whitespace, optional
sign, then digits; `none` models the `ValueError` raise. -/
def pyInt (s : String) : Option Int :=
  let cs := (s.data.dropWhile isWS).reverse.dropWhile isWS |>.reverse
  match cs with
  | '+' :: r => (digitsU r).map (fun n => (n : Int))
  | '-' :: r => (digitsU r).map (fun n => -(n : Int))
  | r => (digitsU r).map (fun n => (n : Int))

/-- `int(row.get(col, 0) or 0)`: a missing column / `None` restval or an empty
string give `0`; any other string is converted by `int()` and may raise. -/
def conv (field : Option String) : Option Int :=
  match field with
  | none => some 0
  | some s => if s = "" then some 0 else pyInt s

/-! ### Calendar-day arithmetic for `datetime.utcnow() - timedelta(days=n)`

Standard civil-calendar day-number conversions (proleptic Gregorian). -/

def daysFromCivil (y m d : Int) : Int :=
  let y := if m ≤ 2 then y - 1 else y
  let era := Int.fdiv y 400
  let yoe := y - era * 400
  let doy := Int.fdiv (153 * (if 2 < m then m - 3 else m + 9) + 2) 5 + d - 1
  let doe := yoe * 365 + Int.fdiv yoe 4 - Int.fdiv yoe 100 + doy
  era * 146097 + doe - 719468

def civilFromDays (z : Int) : Int × Int × Int :=
  let z := z + 719468
  let era := Int.fdiv z 146097
  let doe := z - era * 146097
  let yoe := Int.fdiv (doe - Int.fdiv doe 1460 + Int.fdiv doe 36524 - Int.fdiv doe 146096) 365
  let y := yoe + era * 400
  let doy := doe - (365 * yoe + Int.fdiv yoe 4 - Int.fdiv yoe 100)
  let mp := Int.fdiv (5 * doy + 2) 153
  let d := doy - Int.fdiv (153 * mp + 2) 5 + 1
  let m := if mp < 10 then mp + 3 else mp - 9
  (if m ≤ 2 then y + 1 else y, m, d)

/-- `dt - timedelta(days = n)`: shift the calendar date, keep the time of day. -/
def subDays (dt : DateTime) (n : Nat) : DateTime :=
  let z := daysFromCivil dt.year dt.month dt.day - n
  let c := civilFromDays z
  ⟨c.1.toNat, c.2.1.toNat, c.2.2.toNat, dt.hour, dt.minute, dt.second⟩

/-! ### Traffic reader `read_views_clones` (source lines 67–99)

A CSV file is modelled as the list of its `DictReader` rows; each relevant
column is `Option String` (`none` for a missing column or `None` restval). -/

structure TRow where
  time_iso8601 : Option String
  views_unique : Option String
  clones_unique : Option String
  views_total : Option String
  clones_total : Option String
deriving DecidableEq, Repr

/-- The six accumulator variables of `read_views_clones`, in source order. -/
structure TState where
  views_series : List Int
  clones_series : List Int
  views_total : Int
  views_unique : Int
  clones_total : Int
  clones_unique : Int
deriving DecidableEq, Repr

def initTState : TState := ⟨[], [], 0, 0, 0, 0⟩

/-- One loop iteration of `read_views_clones` (source lines 85–95).  The four
`int(...)` conversions raise in source order; `.error st` models the raise
escaping to the `except: pass`, with `st` the accumulator state at that
instant (appends of the failing row may already have happened). -/
def stepRow (cutoff : DateTime) (st : TState) (r : TRow) : Except TState TState :=
  match parse_date (r.time_iso8601.getD "") with
  | none => .ok st
  | some date =>
    if dleb cutoff date then
      match conv r.views_unique with
      | none => .error st
      | some vU =>
        match conv r.clones_unique with
        | none => .error st
        | some cU =>
          let st1 : TState :=
            { st with views_series := st.views_series ++ [vU],
                      clones_series := st.clones_series ++ [cU] }
          match conv r.views_total with
          | none => .error st1
          | some vT =>
            let st2 : TState :=
              { st1 with views_total := st1.views_total + vT,
                         views_unique := st1.views_unique + vU }
            match conv r.clones_total with
            | none => .error st2
            | some cT =>
              .ok { st2 with clones_total := st2.clones_total + cT,
                             clones_unique := st2.clones_unique + cU }
    else .ok st

/-- The row loop: an exception (`.error`) abandons the rest of the file and
the accumulated state is returned (the `try/except Exception: pass`). -/
def runRows (cutoff : DateTime) : TState → List TRow → TState
  | st, [] => st
  | st, r :: rs =>
    match stepRow cutoff st r with
    | .ok st' => runRows cutoff st' rs
    | .error st' => st'

/-- Embedding of `read_views_clones` on the parsed rows of an existing file;
`cutoff = datetime.utcnow() - timedelta(days=days)` with `now` passed
explicitly. -/
def read_views_clones (now : DateTime) (days : Nat) (rows : List TRow) : TState :=
  runRows (subDays now days) initTState rows

/-! ### Cumulative reader `read_cumulative_series` (source lines 102–142) -/

/-- A row of `stargazers.csv` / `forks.csv`: the timestamp column and the
requested `value_col` column. -/
structure CRow where
  time_iso8601 : Option String
  value : Option String
deriving DecidableEq, Repr

/-- The reading loop of `read_cumulative_series` (lines 117–121): each row's
value is converted by `int(...)` (a raise aborts everything, modelled by
`none`), and rows whose timestamp does not parse are skipped. -/
def collectValues : List CRow → Option (List (DateTime × Int))
  | [] => some []
  | r :: rs =>
    match conv r.value with
    | none => none
    | some v =>
      match parse_date (r.time_iso8601.getD "") with
      | some d => (collectValues rs).map (fun l => (d, v) :: l)
      | none => collectValues rs

/-- Date-key comparison used by `all_values.sort(key=lambda x: x[0])`. -/
def pairLE (a b : DateTime × Int) : Prop := dleb a.1 b.1 = true

instance : DecidableRel pairLE :=
  fun a b => inferInstanceAs (Decidable (dleb a.1 b.1 = true))

/-- Python's `list.sort` is a stable sort; insertion sort with a (total,
transitive) `≤`-key relation computes exactly the stable sort. -/
def sortPairs (l : List (DateTime × Int)) : List (DateTime × Int) :=
  List.insertionSort pairLE l

def dfltPair : DateTime × Int := (⟨0, 0, 0, 0, 0, 0⟩, 0)

/-- The post-processing block of `read_cumulative_series` (source lines
123–137), acting on the collected `all_values`: sort by date ascending,
current value = value of the last sorted row, series = values with date
`>= cutoff` in sorted order, growth per the `values_before` branch.  The
`if all_values:` guard means the empty list keeps the initial `([], 0, 0)`. -/
def seriesCurrentGrowth (cutoff : DateTime) (all_values : List (DateTime × Int)) :
    List Int × Int × Int :=
  match all_values with
  | [] => ([], 0, 0)
  | _ :: _ =>
    let sorted := sortPairs all_values
    let current_value := (sorted.getLastD dfltPair).2
    let series := (sorted.filter (fun p => dleb cutoff p.1)).map (fun p => p.2)
    let values_before := (sorted.filter (fun p => dltb p.1 cutoff)).map (fun p => p.2)
    let growth :=
      match values_before.getLast? with
      | some b => current_value - b
      | none =>
        match series.head? with
        | some s0 => if s0 ≠ current_value then current_value - s0 else current_value
        | none => 0
    (series, current_value, growth)

/-- Embedding of `read_cumulative_series`: returns
`(series, current_value, growth)`.  An `int()` raise anywhere in the loop
skips the whole post-processing block (the `try` wraps it too), so the
initial `([], 0, 0)` is returned. -/
def read_cumulative_series (now : DateTime) (days : Nat) (rows : List CRow) :
    List Int × Int × Int :=
  match collectValues rows with
  | none => ([], 0, 0)
  | some all_values => seriesCurrentGrowth (subDays now days) all_values

/-! ### Repo stats aggregation (source lines 19–46 and 145–190) -/

/-- The `RepoStats` dataclass. -/
structure RepoStats where
  name : String
  full_name : String
  stars : Int := 0
  forks : Int := 0
  views_total : Int := 0
  views_unique : Int := 0
  clones_total : Int := 0
  clones_unique : Int := 0
  views_series : List Int := []
  clones_series : List Int := []
  stars_series : List Int := []
  forks_series : List Int := []
  stars_growth : Int := 0
  forks_growth : Int := 0
  has_activity : Bool := false
deriving DecidableEq, Repr

/-- Activity test of `collect_repo_stats` (source lines 178–183). -/
def computeActivity (r : RepoStats) : Bool :=
  decide (0 < r.views_unique) || decide (0 < r.clones_unique) ||
    decide (0 < r.stars) || decide (0 < r.forks)

/-- `repo_stats.has_activity = (...)` assignment. -/
def setActivity (r : RepoStats) : RepoStats := { r with has_activity := computeActivity r }

/-- Sort key of line 188: the tuple `(r.stars, r.views_unique)`. -/
def statKey (r : RepoStats) : Int × Int := (r.stars, r.views_unique)

/-- Lexicographic order on Python int pairs. -/
def lexLe (p q : Int × Int) : Prop := p.1 < q.1 ∨ (p.1 = q.1 ∧ p.2 ≤ q.2)

instance : DecidableRel lexLe := fun _ _ => inferInstanceAs (Decidable (_ ∨ _))

/-- Descending-with-ties relation modelling
`stats.sort(key=lambda r: (r.stars, r.views_unique), reverse=True)`:
a stable sort placing larger keys first. -/
def statKeyLE (a b : RepoStats) : Prop := lexLe (statKey b) (statKey a)

instance : DecidableRel statKeyLE := fun _ _ => inferInstanceAs (Decidable (lexLe _ _))

/-- The sort of line 188 (Python's sort is stable; `reverse=True` keeps
equal-key elements in input order). -/
def sortStats (stats : List RepoStats) : List RepoStats :=
  List.insertionSort statKeyLE stats

/-- Dashboard partition, lines 332–333: `active_repos`. -/
def activeRepos (stats : List RepoStats) : List RepoStats :=
  stats.filter (fun r => r.has_activity)

/-- Dashboard partition, lines 332–333: `cricket_repos`. -/
def cricketRepos (stats : List RepoStats) : List RepoStats :=
  stats.filter (fun r => !r.has_activity)

/-! ### Sparkline renderer `generate_sparkline_svg` (source lines 193–248)

Python float arithmetic is modelled by exact rationals. -/

/-- `max` of a nonempty Python list (the empty case is unreachable behind the
`if not all_values` guard; `0` is a dummy). -/
def pyMax : List Int → Int
  | [] => 0
  | x :: xs => xs.foldl max x

def pyMin : List Int → Int
  | [] => 0
  | x :: xs => xs.foldl min x

/-- `min_val = min(all_values) if cumulative else 0`. -/
def svgMinVal (all_values : List Int) (cumulative : Bool) : Int :=
  if cumulative then pyMin all_values else 0

/-- `val_range = max_val - min_val if max_val != min_val else 1`. -/
def svgValRange (all_values : List Int) (cumulative : Bool) : ℚ :=
  let mn := svgMinVal all_values cumulative
  let mx := pyMax all_values
  if mx ≠ mn then ((mx - mn : Int) : ℚ) else 1

/-- The point list computed by the inner `make_points` (source lines 219–229):
index `i` maps to `x = i * width / max(len - 1, 1)` and value `val` to
`y = height - 4 - ((val - min_val) / val_range) * (height - 8)`. -/
def make_points (width height : Int) (min_val : Int) (val_range : ℚ)
    (series : List Int) : List (ℚ × ℚ) :=
  match series with
  | [] => []
  | _ :: _ =>
    let step : ℚ := (width : ℚ) / ((max (series.length - 1) 1 : Nat) : ℚ)
    series.enum.map (fun p =>
      ((p.1 : ℚ) * step,
       (height : ℚ) - 4 - (((p.2 : Int) - min_val : Int) / val_range) * ((height : ℚ) - 8)))

/-- Round half to even, the rounding of float formatting. -/
def roundHE (x : ℚ) : Int :=
  let f := ⌊x⌋
  let r := x - f
  if r < 1 / 2 then f else if 1 / 2 < r then f + 1 else if f % 2 = 0 then f else f + 1

/-- `f"{x:.1f}"`: fixed-point formatting with one decimal digit (on the exact
rational model of the float value). -/
def fmt1 (q : ℚ) : String :=
  let n := roundHE (q * 10)
  let a := n.natAbs
  (if n < 0 ∨ (n = 0 ∧ q < 0) then "-" else "") ++ toString (a / 10) ++ "." ++ toString (a % 10)

/-- `" ".join(points)` with each point rendered as `f"{x:.1f},{y:.1f}"`. -/
def pointsStr (pts : List (ℚ × ℚ)) : String :=
  String.intercalate " " (pts.map (fun p => fmt1 p.1 ++ "," ++ fmt1 p.2))

/-- Embedding of `generate_sparkline_svg`.  `series2 = none` models the `None`
default; `some []` and `none` are both falsy. -/
def generate_sparkline_svg (series1 : List Int) (series2 : Option (List Int))
    (width height : Int) (color1 color2 : String) (cumulative : Bool) : String :=
  if series1 = [] ∧ series2.getD [] = [] then
    "<svg viewBox=\"0 0 " ++ toString width ++ " " ++ toString height ++
      "\" class=\"sparkline\"><text x=\"" ++ toString (Int.fdiv width 2) ++ "\" y=\"" ++
      toString (Int.fdiv height 2 + 4) ++
      "\" text-anchor=\"middle\" fill=\"#999\" font-size=\"10\">no data</text></svg>"
  else
    let all_values := series1 ++ series2.getD []
    if all_values = [] ∨ pyMax all_values = 0 then
      "<svg viewBox=\"0 0 " ++ toString width ++ " " ++ toString height ++
        "\" class=\"sparkline\"><line x1=\"0\" y1=\"" ++ toString (height - 4) ++
        "\" x2=\"" ++ toString width ++ "\" y2=\"" ++ toString (height - 4) ++
        "\" stroke=\"#ddd\" stroke-width=\"1\"/></svg>"
    else
      let mn := svgMinVal all_values cumulative
      let vr := svgValRange all_values cumulative
      let header := "<svg viewBox=\"0 0 " ++ toString width ++ " " ++ toString height ++
        "\" class=\"sparkline\">"
      let part1 :=
        if series1 ≠ [] then
          ["<polyline points=\"" ++ pointsStr (make_points width height mn vr series1) ++
            "\" fill=\"none\" stroke=\"" ++ color1 ++
            "\" stroke-width=\"1.5\" stroke-linecap=\"round\" stroke-linejoin=\"round\"/>"]
        else []
      let part2 :=
        if series2.getD [] ≠ [] then
          ["<polyline points=\"" ++ pointsStr (make_points width height mn vr (series2.getD [])) ++
            "\" fill=\"none\" stroke=\"" ++ color2 ++
            "\" stroke-width=\"1.5\" stroke-dasharray=\"3,2\" stroke-linecap=\"round\" stroke-linejoin=\"round\"/>"]
        else []
      String.join ([header] ++ part1 ++ part2 ++ ["</svg>"])

/-! ### Derived predicates and spec-side definitions used by the theorems -/

/-- All four `int(...)` conversions of a traffic row succeed. -/
def rowOk (r : TRow) : Prop :=
  (conv r.views_unique).isSome ∧ (conv r.clones_unique).isSome ∧
    (conv r.views_total).isSome ∧ (conv r.clones_total).isSome

instance : DecidablePred rowOk := fun _ => inferInstanceAs (Decidable (_ ∧ _ ∧ _ ∧ _))

/-- The accumulation condition of line 87: the timestamp parses and the
parsed date is `>= cutoff` (there is no upper bound in the source). -/
def inWindow (cutoff : DateTime) (r : TRow) : Bool :=
  match parse_date (r.time_iso8601.getD "") with
  | some d => dleb cutoff d
  | none => false

/-- Whether processing row `r` raises inside the loop of `read_views_clones`
(a row in the window with some failing `int(...)` conversion); this is
independent of the accumulator state. -/
def rowAborts (cutoff : DateTime) (r : TRow) : Bool :=
  match parse_date (r.time_iso8601.getD "") with
  | none => false
  | some d =>
    dleb cutoff d &&
      !((conv r.views_unique).isSome && (conv r.clones_unique).isSome &&
        (conv r.views_total).isSome && (conv r.clones_total).isSome)

/-- The `(date, value)` pairs of the rows whose timestamp parses (the
`all_values` list built by `read_cumulative_series` when no `int()` raises). -/
def goodPairs (rows : List CRow) : List (DateTime × Int) :=
  rows.filterMap (fun r =>
    match conv r.value, parse_date (r.time_iso8601.getD "") with
    | some v, some d => some (d, v)
    | _, _ => none)

/-- Strict date-key comparison on pairs. -/
def pairLT (a b : DateTime × Int) : Prop := dltb a.1 b.1 = true

/-- Spec-side growth formula (claim C1, following §4.3 of the spec):
current value = value of the chronologically last row; growth = current minus
the value of the last row strictly before the cutoff; if no such prior row
exists, current minus the first in-window value unless that value equals the
current value, in which case growth is the current value itself. -/
def specGrowth (cutoff : DateTime) (pairs : List (DateTime × Int)) : Int :=
  let sorted := sortPairs pairs
  let current := (sorted.getLastD dfltPair).2
  match (sorted.filter (fun p => dltb p.1 cutoff)).getLast? with
  | some b => current - b.2
  | none =>
    match (sorted.filter (fun p => dleb cutoff p.1)).head? with
    | some s0 => if s0.2 ≠ current then current - s0.2 else current
    | none => 0

/-! ### Canonical renderings of the supported timestamp formats (for C2) -/

def dch : Nat → Char
  | 0 => '0'
  | 1 => '1'
  | 2 => '2'
  | 3 => '3'
  | 4 => '4'
  | 5 => '5'
  | 6 => '6'
  | 7 => '7'
  | 8 => '8'
  | _ => '9'

/-- Two-digit zero-padded rendering. -/
def pad2 (n : Nat) : List Char := [dch (n / 10), dch (n % 10)]

/-- Four-digit zero-padded rendering. -/
def pad4 (n : Nat) : List Char :=
  [dch (n / 1000), dch (n / 100 % 10), dch (n / 10 % 10), dch (n % 10)]

/-- Characters of `YYYY-MM-DD HH:MM:SS`. -/
def fmtChars (y mo d h mi s : Nat) : List Char :=
  pad4 y ++ '-' :: pad2 mo ++ '-' :: pad2 d ++ ' ' :: pad2 h ++ ':' :: pad2 mi ++ ':' :: pad2 s

/-- Characters of `YYYY-MM-DD`. -/
def dateChars (y mo d : Nat) : List Char := pad4 y ++ '-' :: pad2 mo ++ '-' :: pad2 d

/-- `YYYY-MM-DD HH:MM:SS`. -/
def fmtFull (y mo d h mi s : Nat) : String := ⟨fmtChars y mo d h mi s⟩

/-- `YYYY-MM-DD HH:MM:SS+00:00`. -/
def fmtFullTZ (y mo d h mi s : Nat) : String := ⟨fmtChars y mo d h mi s ++ tzChars⟩

/-- Bare `YYYY-MM-DD`. -/
def fmtDate (y mo d : Nat) : String := ⟨dateChars y mo d⟩

/-! ## Helper lemmas -/

theorem dleb_total (a b : DateTime) : dleb a b = true ∨ dleb b a = true := by
  simp only [dleb, Bool.or_eq_true, Bool.and_eq_true, decide_eq_true_eq]
  omega

theorem dleb_trans {a b c : DateTime} (h1 : dleb a b = true) (h2 : dleb b c = true) :
    dleb a c = true := by
  simp only [dleb, Bool.or_eq_true, Bool.and_eq_true, decide_eq_true_eq] at *
  omega

theorem dltb_asymm {a b : DateTime} (h1 : dltb a b = true) (h2 : dltb b a = true) : False := by
  simp only [dltb, Bool.or_eq_true, Bool.and_eq_true, decide_eq_true_eq] at *
  omega

theorem dltb_of_dleb_of_ne {a b : DateTime} (h1 : dleb a b = true) (h2 : a ≠ b) :
    dltb a b = true := by
  cases a
  cases b
  simp only [dleb, dltb, Bool.or_eq_true, Bool.and_eq_true, decide_eq_true_eq,
    ne_eq, DateTime.mk.injEq, not_and] at *
  omega

instance : IsTotal (DateTime × Int) pairLE := ⟨fun a b => dleb_total a.1 b.1⟩

instance : IsTrans (DateTime × Int) pairLE := ⟨fun _ _ _ h1 h2 => dleb_trans h1 h2⟩

instance : IsAntisymm (DateTime × Int) pairLT :=
  ⟨fun _ _ h1 h2 => absurd (dltb_asymm h1 h2) not_false⟩

instance : IsTotal RepoStats statKeyLE :=
  ⟨fun a b => by simp only [statKeyLE, lexLe]; omega⟩

instance : IsTrans RepoStats statKeyLE :=
  ⟨fun a b c h1 h2 => by
    simp only [statKeyLE, lexLe] at *
    omega⟩

/-! ## C9 : determinism of the sparkline renderer -/

/-- C9: the Sparkline Renderer is deterministic — two invocations of
`generate_sparkline_svg` with identical inputs (first sequence, optional
second sequence, width, height, both colors, cumulative flag) return
byte-identical markup strings.  In the shallow embedding the renderer is a
pure function of exactly these inputs. -/
theorem sparkline_deterministic (s1 s1' : List Int) (s2 s2' : Option (List Int))
    (w w' h h' : Int) (c1 c1' c2 c2' : String) (cum cum' : Bool)
    (e1 : s1 = s1') (e2 : s2 = s2') (ew : w = w') (eh : h = h')
    (ec1 : c1 = c1') (ec2 : c2 = c2') (ecum : cum = cum') :
    generate_sparkline_svg s1 s2 w h c1 c2 cum =
      generate_sparkline_svg s1' s2' w' h' c1' c2' cum' := by
  subst e1 e2 ew eh ec1 ec2 ecum
  rfl

theorem sparkline_deterministic_witness :
    generate_sparkline_svg [3, 1] (some [2]) 120 32 "#c95d2e" "#d4a03c" false =
      generate_sparkline_svg [3, 1] (some [2]) 120 32 "#c95d2e" "#d4a03c" false :=
  sparkline_deterministic [3, 1] [3, 1] (some [2]) (some [2]) 120 120 32 32
    "#c95d2e" "#c95d2e" "#d4a03c" "#d4a03c" false false rfl rfl rfl rfl rfl rfl rfl

/-! ## C7 : descending stable sort of the repository list -/

theorem filter_orderedInsert_key_eq (k : Int × Int) (a : RepoStats) (l : List RepoStats)
    (ha : statKey a = k) :
    (List.orderedInsert statKeyLE a l).filter (fun r => decide (statKey r = k)) =
      a :: l.filter (fun r => decide (statKey r = k)) := by
  induction l with
  | nil => simp [List.orderedInsert, ha]
  | cons b t ih =>
    by_cases hab : statKeyLE a b
    · simp [List.orderedInsert, hab, List.filter_cons, ha]
    · have hbk : ¬(statKey b = k) := by
        intro he
        exact hab (by unfold statKeyLE lexLe; rw [he, ha]; exact Or.inr ⟨rfl, le_refl _⟩)
      simp [List.orderedInsert, hab, List.filter_cons, hbk, ih]

theorem filter_orderedInsert_key_ne (k : Int × Int) (a : RepoStats) (l : List RepoStats)
    (ha : ¬(statKey a = k)) :
    (List.orderedInsert statKeyLE a l).filter (fun r => decide (statKey r = k)) =
      l.filter (fun r => decide (statKey r = k)) := by
  induction l with
  | nil => simp [List.orderedInsert, ha]
  | cons b t ih =>
    by_cases hab : statKeyLE a b
    · simp [List.orderedInsert, hab, List.filter_cons, ha]
    · simp [List.orderedInsert, hab, List.filter_cons, ih]

theorem filter_sortStats (k : Int × Int) (l : List RepoStats) :
    (sortStats l).filter (fun r => decide (statKey r = k)) =
      l.filter (fun r => decide (statKey r = k)) := by
  induction l with
  | nil => rfl
  | cons x t ih =>
    show (List.orderedInsert statKeyLE x (sortStats t)).filter _ = _
    by_cases hx : statKey x = k
    · rw [filter_orderedInsert_key_eq k x (sortStats t) hx, ih]
      simp [List.filter_cons, hx]
    · rw [filter_orderedInsert_key_ne k x (sortStats t) hx, ih]
      simp [List.filter_cons, hx]

/-- C7: after aggregation the repository list is sorted descending by
(star count, unique views) — formalised as: `sortStats` (the sort of source
line 188) permutes its input, its output is pairwise ordered by the
descending key relation `statKeyLE`, the sort is stable (for every key value,
filtering the output for that key gives exactly the input's records with that
key in input order), and the spec's concrete example
A(stars 5, views 10), B(stars 5, views 20), C(stars 10, views 0) sorts to
C, B, A. -/
theorem sortStats_sorted_stable :
    (∀ l : List RepoStats, (sortStats l).Perm l)
    ∧ (∀ l : List RepoStats, List.Sorted statKeyLE (sortStats l))
    ∧ (∀ (l : List RepoStats) (k : Int × Int),
        (sortStats l).filter (fun r => decide (statKey r = k)) =
          l.filter (fun r => decide (statKey r = k)))
    ∧ sortStats
        [{ name := "A", full_name := "o/A", stars := 5, views_unique := 10 },
         { name := "B", full_name := "o/B", stars := 5, views_unique := 20 },
         { name := "C", full_name := "o/C", stars := 10, views_unique := 0 }] =
        [{ name := "C", full_name := "o/C", stars := 10, views_unique := 0 },
         { name := "B", full_name := "o/B", stars := 5, views_unique := 20 },
         { name := "A", full_name := "o/A", stars := 5, views_unique := 10 }] := by
  refine ⟨fun l => List.perm_insertionSort statKeyLE l,
    fun l => List.sorted_insertionSort statKeyLE l, fun l k => filter_sortStats k l, ?_⟩
  decide

/-! ## C8 : the activity flag and the crickets partition -/

/-- C8 counterexample: the source sets the flag with `> 0` comparisons
(lines 178–183), so a record with a nonzero but negative unique-view count
(reachable from a negative CSV value) is classified inactive although one of
the four counts is nonzero — refuting "flag true iff some count is nonzero". -/
theorem activity_nonzero_cx :
    computeActivity { name := "r", full_name := "o/r", views_unique := -1 } = false
    ∧ ({ name := "r", full_name := "o/r", views_unique := -1 } : RepoStats).views_unique ≠ 0 := by
  constructor
  · rfl
  · decide

/-- C8 (amended): the activity flag assigned by the aggregator is true iff at
least one of unique views, unique clones, stars, forks is positive; and any
record whose flag is false appears in the dashboard's crickets partition and
never in the active partition (source lines 332–333). -/
theorem activity_flag_spec (r : RepoStats) (stats : List RepoStats) :
    ((setActivity r).has_activity = true ↔
      0 < r.views_unique ∨ 0 < r.clones_unique ∨ 0 < r.stars ∨ 0 < r.forks)
    ∧ (r ∈ stats → r.has_activity = false →
        r ∉ activeRepos stats ∧ r ∈ cricketRepos stats) := by
  constructor
  · simp [setActivity, computeActivity, or_assoc]
  · intro hmem hact
    constructor
    · simp [activeRepos, List.mem_filter, hact]
    · simp [cricketRepos, List.mem_filter, hact, hmem]

theorem activity_flag_spec_witness :
    (((setActivity { name := "z", full_name := "o/z" }).has_activity = true ↔
        0 < ({ name := "z", full_name := "o/z" } : RepoStats).views_unique ∨
          0 < ({ name := "z", full_name := "o/z" } : RepoStats).clones_unique ∨
          0 < ({ name := "z", full_name := "o/z" } : RepoStats).stars ∨
          0 < ({ name := "z", full_name := "o/z" } : RepoStats).forks)
      ∧ (({ name := "z", full_name := "o/z" } : RepoStats) ∉
            activeRepos [{ name := "z", full_name := "o/z" }]
          ∧ ({ name := "z", full_name := "o/z" } : RepoStats) ∈
              cricketRepos [{ name := "z", full_name := "o/z" }])) :=
  ⟨(activity_flag_spec { name := "z", full_name := "o/z" }
      [{ name := "z", full_name := "o/z" }]).1,
    (activity_flag_spec { name := "z", full_name := "o/z" }
      [{ name := "z", full_name := "o/z" }]).2 (by simp) rfl⟩

/-! ## C10 : the sparkline point mapping stays inside the padded band -/

theorem le_foldl_max_init (l : List Int) (a : Int) : a ≤ l.foldl max a := by
  induction l generalizing a with
  | nil => exact le_refl a
  | cons x xs ih => exact le_trans (le_max_left a x) (ih (max a x))

theorem le_foldl_max_mem (l : List Int) : ∀ a v : Int, v ∈ l → v ≤ l.foldl max a := by
  induction l with
  | nil => intro a v h; cases h
  | cons x xs ih =>
    intro a v h
    rcases List.mem_cons.mp h with rfl | hx
    · exact le_trans (le_max_right a v) (le_foldl_max_init xs (max a v))
    · exact ih (max a x) v hx

theorem le_pyMax (l : List Int) (v : Int) (h : v ∈ l) : v ≤ pyMax l := by
  cases l with
  | nil => cases h
  | cons x xs =>
    rcases List.mem_cons.mp h with rfl | hx
    · exact le_foldl_max_init xs v
    · exact le_foldl_max_mem xs x v hx

theorem foldl_min_le_init (l : List Int) (a : Int) : l.foldl min a ≤ a := by
  induction l generalizing a with
  | nil => exact le_refl a
  | cons x xs ih => exact le_trans (ih (min a x)) (min_le_left a x)

theorem foldl_min_le_mem (l : List Int) : ∀ a v : Int, v ∈ l → l.foldl min a ≤ v := by
  induction l with
  | nil => intro a v h; cases h
  | cons x xs ih =>
    intro a v h
    rcases List.mem_cons.mp h with rfl | hx
    · exact le_trans (foldl_min_le_init xs (min a v)) (min_le_right a v)
    · exact ih (min a x) v hx

theorem pyMin_le (l : List Int) (v : Int) (h : v ∈ l) : pyMin l ≤ v := by
  cases l with
  | nil => cases h
  | cons x xs =>
    rcases List.mem_cons.mp h with rfl | hx
    · exact foldl_min_le_init xs v
    · exact foldl_min_le_mem xs x v hx

theorem val_mem_of_mem_enum {l : List Int} {p : Nat × Int} (h : p ∈ l.enum) : p.2 ∈ l := by
  rw [List.mem_enum_iff_getElem?] at h
  exact List.getElem?_mem h

theorem make_points_y_core (width height : Int) (mn : Int) (vr : ℚ) (s : List Int)
    (hh : 8 ≤ height) (hvr : 0 < vr)
    (hb : ∀ v ∈ s, 0 ≤ ((v - mn : Int) : ℚ) ∧ ((v - mn : Int) : ℚ) ≤ vr) :
    ∀ p ∈ make_points width height mn vr s, 4 ≤ p.2 ∧ p.2 ≤ (height : ℚ) - 4 := by
  intro p hp
  cases s with
  | nil => simp [make_points] at hp
  | cons x xs =>
    simp only [make_points, List.mem_map] at hp
    obtain ⟨q, hq, rfl⟩ := hp
    have hv : q.2 ∈ x :: xs := val_mem_of_mem_enum hq
    obtain ⟨h0, h1⟩ := hb q.2 hv
    have h8 : (8 : ℚ) ≤ (height : ℚ) := by exact_mod_cast hh
    have ht0 : 0 ≤ ((q.2 - mn : Int) : ℚ) / vr := div_nonneg h0 (le_of_lt hvr)
    have ht1 : ((q.2 - mn : Int) : ℚ) / vr ≤ 1 := (div_le_one hvr).mpr h1
    have hp1 : 0 ≤ (((q.2 - mn : Int) : ℚ) / vr) * ((height : ℚ) - 8) :=
      mul_nonneg ht0 (by linarith)
    have hp2 : (((q.2 - mn : Int) : ℚ) / vr) * ((height : ℚ) - 8) ≤ (height : ℚ) - 8 := by
      nlinarith
    constructor
    · simp only
      linarith
    · simp only
      linarith

/-- C10 (amended): provided the chart height is at least 8 (every call site
passes 32 or 40), for input sequences of nonnegative values when the
cumulative flag is off (any values when it is on) whose combined maximum is
nonzero (the gate behind which `make_points` is reached), the value range
used as divisor is nonzero and every y-coordinate emitted by the point
mapping lies in the padded band `[4, height - 4]`. -/
theorem make_points_y_in_band (width height : Int) (series1 : List Int)
    (series2 : Option (List Int)) (cumulative : Bool)
    (hh : 8 ≤ height)
    (hnn : cumulative = false → ∀ v ∈ series1 ++ series2.getD [], 0 ≤ v)
    (hmax : pyMax (series1 ++ series2.getD []) ≠ 0) :
    svgValRange (series1 ++ series2.getD []) cumulative ≠ 0
    ∧ ∀ s, (s = series1 ∨ s = series2.getD []) →
        ∀ p ∈ make_points width height
            (svgMinVal (series1 ++ series2.getD []) cumulative)
            (svgValRange (series1 ++ series2.getD []) cumulative) s,
          4 ≤ p.2 ∧ p.2 ≤ (height : ℚ) - 4 := by
  have hallne : series1 ++ series2.getD [] ≠ [] := by
    intro h
    rw [h] at hmax
    exact hmax rfl
  obtain ⟨a0, has⟩ : ∃ a, a ∈ series1 ++ series2.getD [] :=
    List.exists_mem_of_ne_nil _ hallne
  have hmnle : ∀ v ∈ series1 ++ series2.getD [],
      svgMinVal (series1 ++ series2.getD []) cumulative ≤ v := by
    intro v hv
    cases cumulative with
    | true => exact pyMin_le _ v hv
    | false =>
      simp only [svgMinVal, if_neg Bool.false_ne_true]
      exact hnn rfl v hv
  have hlemx : ∀ v ∈ series1 ++ series2.getD [], v ≤ pyMax (series1 ++ series2.getD []) :=
    fun v hv => le_pyMax _ v hv
  have hmnmx : svgMinVal (series1 ++ series2.getD []) cumulative ≤
      pyMax (series1 ++ series2.getD []) :=
    le_trans (hmnle a0 has) (hlemx a0 has)
  by_cases hc : pyMax (series1 ++ series2.getD []) =
      svgMinVal (series1 ++ series2.getD []) cumulative
  · have hvr : svgValRange (series1 ++ series2.getD []) cumulative = 1 := by
      simp [svgValRange, hc]
    refine ⟨by rw [hvr]; norm_num, ?_⟩
    intro s hs p hp
    refine make_points_y_core width height _ _ s hh (by rw [hvr]; norm_num) ?_ p hp
    intro v hv
    have hvall : v ∈ series1 ++ series2.getD [] := by
      rcases hs with rfl | rfl
      · exact List.mem_append_left _ hv
      · exact List.mem_append_right _ hv
    have h1 := hmnle v hvall
    have h2 := hlemx v hvall
    have hveq : v = svgMinVal (series1 ++ series2.getD []) cumulative := le_antisymm (hc ▸ h2) h1
    rw [hvr]
    constructor
    · rw [hveq]
      simp
    · rw [hveq]
      simp
  · have hlt : svgMinVal (series1 ++ series2.getD []) cumulative <
        pyMax (series1 ++ series2.getD []) := lt_of_le_of_ne hmnmx (fun h => hc h.symm)
    have hvr : svgValRange (series1 ++ series2.getD []) cumulative =
        ((pyMax (series1 ++ series2.getD []) -
          svgMinVal (series1 ++ series2.getD []) cumulative : Int) : ℚ) := by
      simp [svgValRange, hc]
    have hvrpos : 0 < svgValRange (series1 ++ series2.getD []) cumulative := by
      rw [hvr]
      exact_mod_cast Int.sub_pos.mpr hlt
    refine ⟨ne_of_gt hvrpos, ?_⟩
    intro s hs p hp
    refine make_points_y_core width height _ _ s hh hvrpos ?_ p hp
    intro v hv
    have hvall : v ∈ series1 ++ series2.getD [] := by
      rcases hs with rfl | rfl
      · exact List.mem_append_left _ hv
      · exact List.mem_append_right _ hv
    have h1 := hmnle v hvall
    have h2 := hlemx v hvall
    constructor
    · exact_mod_cast Int.sub_nonneg.mpr h1
    · rw [hvr]
      exact_mod_cast Int.sub_le_sub_right h2 _

/-- C10 counterexample: with height `0` (the claim states no constraint on
the height parameter) the first point of a two-value non-cumulative series
has y-coordinate `-4`, outside the claimed band `[4, height - 4]`. -/
theorem make_points_height_cx :
    ((make_points 120 0 (svgMinVal [0, 1] false) (svgValRange [0, 1] false) [0, 1]).headD
        (0, 0)).2 = -4
    ∧ ¬(4 ≤ ((-4 : Int) : ℚ)) := by
  constructor
  · norm_num [make_points, svgMinVal, svgValRange, pyMax, pyMin, List.enum, List.enumFrom]
  · norm_num

theorem make_points_y_in_band_witness :
    svgValRange ([0, 2] ++ (some [1]).getD []) false ≠ 0
    ∧ ∀ s, (s = [0, 2] ∨ s = (some [1]).getD []) →
        ∀ p ∈ make_points 120 32
            (svgMinVal ([0, 2] ++ (some [1]).getD []) false)
            (svgValRange ([0, 2] ++ (some [1]).getD []) false) s,
          4 ≤ p.2 ∧ p.2 ≤ ((32 : Int) : ℚ) - 4 :=
  make_points_y_in_band 120 32 [0, 2] (some [1]) false (by decide)
    (fun _ => by decide) (by decide)

/-! ## C3 : windowed accumulation of the traffic reader -/

theorem runRows_no_abort (cutoff : DateTime) (rows : List TRow) :
    ∀ st : TState, (∀ r ∈ rows, rowOk r) →
      runRows cutoff st rows =
        { views_series := st.views_series ++
            (rows.filter (inWindow cutoff)).map (fun r => (conv r.views_unique).getD 0),
          clones_series := st.clones_series ++
            (rows.filter (inWindow cutoff)).map (fun r => (conv r.clones_unique).getD 0),
          views_total := st.views_total +
            ((rows.filter (inWindow cutoff)).map (fun r => (conv r.views_total).getD 0)).sum,
          views_unique := st.views_unique +
            ((rows.filter (inWindow cutoff)).map (fun r => (conv r.views_unique).getD 0)).sum,
          clones_total := st.clones_total +
            ((rows.filter (inWindow cutoff)).map (fun r => (conv r.clones_total).getD 0)).sum,
          clones_unique := st.clones_unique +
            ((rows.filter (inWindow cutoff)).map (fun r => (conv r.clones_unique).getD 0)).sum } := by
  induction rows with
  | nil => intro st _; simp [runRows]
  | cons r rs ih =>
    intro st h
    have hr : rowOk r := h r (List.mem_cons_self r rs)
    have hrs : ∀ x ∈ rs, rowOk x := fun x hx => h x (List.mem_cons_of_mem r hx)
    obtain ⟨hvU, hcU, hvT, hcT⟩ := hr
    obtain ⟨vU, hvU⟩ := Option.isSome_iff_exists.mp hvU
    obtain ⟨cU, hcU⟩ := Option.isSome_iff_exists.mp hcU
    obtain ⟨vT, hvT⟩ := Option.isSome_iff_exists.mp hvT
    obtain ⟨cT, hcT⟩ := Option.isSome_iff_exists.mp hcT
    cases hp : parse_date (r.time_iso8601.getD "") with
    | none =>
      have hstep : stepRow cutoff st r = .ok st := by rw [stepRow, hp]
      rw [runRows, hstep]
      show runRows cutoff st rs = _
      rw [ih st hrs]
      simp [List.filter_cons, inWindow, hp]
    | some d =>
      by_cases hd : dleb cutoff d = true
      · have hstep : stepRow cutoff st r = .ok
            { views_series := st.views_series ++ [vU],
              clones_series := st.clones_series ++ [cU],
              views_total := st.views_total + vT,
              views_unique := st.views_unique + vU,
              clones_total := st.clones_total + cT,
              clones_unique := st.clones_unique + cU } := by
          rw [stepRow, hp]
          simp only [hd, if_true, hvU, hcU, hvT, hcT]
        rw [runRows, hstep]
        show runRows cutoff _ rs = _
        rw [ih _ hrs]
        have hw : inWindow cutoff r = true := by rw [inWindow, hp]; exact hd
        simp only [List.filter_cons, hw, if_true, List.map_cons, List.sum_cons,
          hvU, hcU, hvT, hcT, Option.getD_some, TState.mk.injEq]
        refine ⟨by simp, by simp, by omega, by omega, by omega, by omega⟩
      · have hstep : stepRow cutoff st r = .ok st := by
          rw [stepRow, hp]
          simp [hd]
        rw [runRows, hstep]
        show runRows cutoff st rs = _
        rw [ih st hrs]
        have hw : inWindow cutoff r = false := by
          rw [inWindow, hp]
          exact Bool.not_eq_true _ ▸ hd
        simp [List.filter_cons, hw]

/-- C3 (amended): for a traffic file none of whose rows raises in `int(...)`,
`read_views_clones` accumulates a row iff its timestamp parses and the parsed
date is `>= now - window` — there is no upper bound, so rows dated after
`now` are also accumulated; the two series are the in-window rows' unique
values in file order and the four totals are the sums over exactly the
in-window rows. -/
theorem read_views_clones_window (now : DateTime) (days : Nat) (rows : List TRow)
    (h : ∀ r ∈ rows, rowOk r) :
    read_views_clones now days rows =
      { views_series := (rows.filter (inWindow (subDays now days))).map
          (fun r => (conv r.views_unique).getD 0),
        clones_series := (rows.filter (inWindow (subDays now days))).map
          (fun r => (conv r.clones_unique).getD 0),
        views_total := ((rows.filter (inWindow (subDays now days))).map
          (fun r => (conv r.views_total).getD 0)).sum,
        views_unique := ((rows.filter (inWindow (subDays now days))).map
          (fun r => (conv r.views_unique).getD 0)).sum,
        clones_total := ((rows.filter (inWindow (subDays now days))).map
          (fun r => (conv r.clones_total).getD 0)).sum,
        clones_unique := ((rows.filter (inWindow (subDays now days))).map
          (fun r => (conv r.clones_unique).getD 0)).sum } := by
  rw [read_views_clones, runRows_no_abort (subDays now days) rows initTState h]
  simp [initTState]

/-- C3 counterexample: a row dated 2099-01-01 — strictly after
`now = 2024-03-20` — is accumulated by `read_views_clones` (source line 87
only checks `date >= cutoff`), so rows with timestamps after `now_utc` are
not excluded. -/
theorem read_views_clones_no_upper_bound_cx :
    (read_views_clones ⟨2024, 3, 20, 0, 0, 0⟩ 14
        [⟨some "2099-01-01", some "7", some "3", some "9", some "4"⟩]).views_series = [7]
    ∧ dltb ⟨2024, 3, 20, 0, 0, 0⟩ ⟨2099, 1, 1, 0, 0, 0⟩ = true
    ∧ parse_date "2099-01-01" = some ⟨2099, 1, 1, 0, 0, 0⟩ := by
  refine ⟨?_, by decide, ?_⟩
  · rfl
  · rfl

theorem read_views_clones_window_witness :
    read_views_clones ⟨2024, 3, 20, 0, 0, 0⟩ 14
        [⟨some "2024-03-19 00:00:00", some "1", some "2", some "3", some "4"⟩,
         ⟨some "2024-01-01 00:00:00", some "10", some "20", some "30", some "40"⟩] =
      { views_series := (List.filter (inWindow (subDays ⟨2024, 3, 20, 0, 0, 0⟩ 14))
            [⟨some "2024-03-19 00:00:00", some "1", some "2", some "3", some "4"⟩,
             ⟨some "2024-01-01 00:00:00", some "10", some "20", some "30", some "40"⟩]).map
          (fun r => (conv r.views_unique).getD 0),
        clones_series := (List.filter (inWindow (subDays ⟨2024, 3, 20, 0, 0, 0⟩ 14))
            [⟨some "2024-03-19 00:00:00", some "1", some "2", some "3", some "4"⟩,
             ⟨some "2024-01-01 00:00:00", some "10", some "20", some "30", some "40"⟩]).map
          (fun r => (conv r.clones_unique).getD 0),
        views_total := ((List.filter (inWindow (subDays ⟨2024, 3, 20, 0, 0, 0⟩ 14))
            [⟨some "2024-03-19 00:00:00", some "1", some "2", some "3", some "4"⟩,
             ⟨some "2024-01-01 00:00:00", some "10", some "20", some "30", some "40"⟩]).map
          (fun r => (conv r.views_total).getD 0)).sum,
        views_unique := ((List.filter (inWindow (subDays ⟨2024, 3, 20, 0, 0, 0⟩ 14))
            [⟨some "2024-03-19 00:00:00", some "1", some "2", some "3", some "4"⟩,
             ⟨some "2024-01-01 00:00:00", some "10", some "20", some "30", some "40"⟩]).map
          (fun r => (conv r.views_unique).getD 0)).sum,
        clones_total := ((List.filter (inWindow (subDays ⟨2024, 3, 20, 0, 0, 0⟩ 14))
            [⟨some "2024-03-19 00:00:00", some "1", some "2", some "3", some "4"⟩,
             ⟨some "2024-01-01 00:00:00", some "10", some "20", some "30", some "40"⟩]).map
          (fun r => (conv r.clones_total).getD 0)).sum,
        clones_unique := ((List.filter (inWindow (subDays ⟨2024, 3, 20, 0, 0, 0⟩ 14))
            [⟨some "2024-03-19 00:00:00", some "1", some "2", some "3", some "4"⟩,
             ⟨some "2024-01-01 00:00:00", some "10", some "20", some "30", some "40"⟩]).map
          (fun r => (conv r.clones_unique).getD 0)).sum } :=
  read_views_clones_window ⟨2024, 3, 20, 0, 0, 0⟩ 14
    [⟨some "2024-03-19 00:00:00", some "1", some "2", some "3", some "4"⟩,
     ⟨some "2024-01-01 00:00:00", some "10", some "20", some "30", some "40"⟩]
    (by decide)

/-! ## C5 : silent truncation in the traffic reader -/

theorem stepRow_ok_of_not_aborts (cutoff : DateTime) (st : TState) (r : TRow)
    (h : rowAborts cutoff r = false) : ∃ st', stepRow cutoff st r = .ok st' := by
  rw [rowAborts] at h
  cases hp : parse_date (r.time_iso8601.getD "") with
  | none => exact ⟨st, by simp [stepRow, hp]⟩
  | some d =>
    rw [hp] at h
    replace h : (dleb cutoff d &&
        !((conv r.views_unique).isSome && (conv r.clones_unique).isSome &&
          (conv r.views_total).isSome && (conv r.clones_total).isSome)) = false := h
    by_cases hd : dleb cutoff d = true
    · cases hvU : conv r.views_unique with
      | none => rw [hd, hvU] at h; simp at h
      | some vU =>
        cases hcU : conv r.clones_unique with
        | none => rw [hd, hcU] at h; simp at h
        | some cU =>
          cases hvT : conv r.views_total with
          | none => rw [hd, hvT] at h; simp at h
          | some vT =>
            cases hcT : conv r.clones_total with
            | none => rw [hd, hcT] at h; simp at h
            | some cT =>
              exact ⟨_, by simp only [stepRow, hp, hd, if_true, hvU, hcU, hvT, hcT]; rfl⟩
    · simp only [Bool.not_eq_true] at hd
      exact ⟨st, by simp [stepRow, hp, hd]⟩

theorem stepRow_error_of_aborts (cutoff : DateTime) (st : TState) (r : TRow)
    (h : rowAborts cutoff r = true) : ∃ st', stepRow cutoff st r = .error st' := by
  rw [rowAborts] at h
  cases hp : parse_date (r.time_iso8601.getD "") with
  | none => rw [hp] at h; cases h
  | some d =>
    rw [hp] at h
    replace h : (dleb cutoff d &&
        !((conv r.views_unique).isSome && (conv r.clones_unique).isSome &&
          (conv r.views_total).isSome && (conv r.clones_total).isSome)) = true := h
    have hd : dleb cutoff d = true := by
      cases hdd : dleb cutoff d with
      | false => rw [hdd] at h; simp at h
      | true => rfl
    cases hvU : conv r.views_unique with
    | none => exact ⟨st, by simp [stepRow, hp, hd, hvU]⟩
    | some vU =>
      cases hcU : conv r.clones_unique with
      | none => exact ⟨st, by simp [stepRow, hp, hd, hvU, hcU]⟩
      | some cU =>
        cases hvT : conv r.views_total with
        | none => exact ⟨_, by simp only [stepRow, hp, hd, if_true, hvU, hcU, hvT]; rfl⟩
        | some vT =>
          cases hcT : conv r.clones_total with
          | none => exact ⟨_, by simp only [stepRow, hp, hd, if_true, hvU, hcU, hvT, hcT]; rfl⟩
          | some cT =>
            rw [hd, hvU, hcU, hvT, hcT] at h
            simp at h

theorem runRows_append_abort (cutoff : DateTime) (pre : List TRow) (r : TRow)
    (suf : List TRow) (hpre : ∀ p ∈ pre, rowAborts cutoff p = false)
    (hr : rowAborts cutoff r = true) :
    ∀ st : TState, runRows cutoff st (pre ++ r :: suf) = runRows cutoff st (pre ++ [r]) := by
  induction pre with
  | nil =>
    intro st
    obtain ⟨st', he⟩ := stepRow_error_of_aborts cutoff st r hr
    simp only [List.nil_append]
    rw [runRows, runRows, he]
  | cons p ps ih =>
    intro st
    obtain ⟨st', hok⟩ := stepRow_ok_of_not_aborts cutoff st p
      (hpre p (List.mem_cons_self p ps))
    simp only [List.cons_append]
    rw [runRows, runRows, hok]
    show runRows cutoff st' (ps ++ r :: suf) = runRows cutoff st' (ps ++ [r])
    exact ih (fun x hx => hpre x (List.mem_cons_of_mem p hx)) st'

/-- C5 (amended): an `int(...)` raise while scanning the traffic CSV silently
abandons the remainder of the file: the result equals the result of reading
only the rows up to and including the failing row, where the failing row
contributes exactly the partial effects performed before the raising
conversion (its unique values may already be appended to the series and
earlier totals already added); the function never raises. -/
theorem read_views_clones_abort (now : DateTime) (days : Nat) (pre : List TRow)
    (r : TRow) (suf : List TRow)
    (hpre : ∀ p ∈ pre, rowAborts (subDays now days) p = false)
    (hr : rowAborts (subDays now days) r = true) :
    read_views_clones now days (pre ++ r :: suf) = read_views_clones now days (pre ++ [r]) :=
  runRows_append_abort (subDays now days) pre r suf hpre hr initTState

/-- C5 counterexample: a single in-window row whose `clones_total` is not
numeric.  The raise happens after both series appends and after the
`views_total`/`views_unique` additions, so the returned state contains
partial effects of the failing row — not "exactly the series and totals
accumulated from the rows processed before the failing row" (which would be
the all-empty initial state here). -/
theorem read_views_clones_partial_row_cx :
    read_views_clones ⟨2024, 3, 20, 0, 0, 0⟩ 14
        [⟨some "2024-03-19 00:00:00", some "1", some "2", some "3", some "x"⟩] =
      ⟨[1], [2], 3, 1, 0, 0⟩
    ∧ (⟨[1], [2], 3, 1, 0, 0⟩ : TState) ≠ initTState := by
  exact ⟨rfl, by decide⟩

theorem read_views_clones_abort_witness :
    read_views_clones ⟨2024, 3, 20, 0, 0, 0⟩ 14
        ([⟨some "2024-03-19 00:00:00", some "1", some "2", some "3", some "4"⟩] ++
          ⟨some "2024-03-18 00:00:00", some "5", some "6", some "7", some "x"⟩ ::
            [⟨some "2024-03-17 00:00:00", some "8", some "9", some "10", some "11"⟩]) =
      read_views_clones ⟨2024, 3, 20, 0, 0, 0⟩ 14
        ([⟨some "2024-03-19 00:00:00", some "1", some "2", some "3", some "4"⟩] ++
          [⟨some "2024-03-18 00:00:00", some "5", some "6", some "7", some "x"⟩]) :=
  read_views_clones_abort ⟨2024, 3, 20, 0, 0, 0⟩ 14
    [⟨some "2024-03-19 00:00:00", some "1", some "2", some "3", some "4"⟩]
    ⟨some "2024-03-18 00:00:00", some "5", some "6", some "7", some "x"⟩
    [⟨some "2024-03-17 00:00:00", some "8", some "9", some "10", some "11"⟩]
    (by decide) (by decide)

/-! ## C4 : row-level errors in the cumulative reader -/

theorem collectValues_eq_none_iff (rows : List CRow) :
    collectValues rows = none ↔ ∃ r ∈ rows, conv r.value = none := by
  induction rows with
  | nil => simp [collectValues]
  | cons r rs ih =>
    constructor
    · intro h
      rw [collectValues] at h
      cases hv : conv r.value with
      | none => exact ⟨r, List.mem_cons_self r rs, hv⟩
      | some v =>
        rw [hv] at h
        cases hp : parse_date (r.time_iso8601.getD "") with
        | some d =>
          rw [hp] at h
          replace h : (collectValues rs).map (fun l => (d, v) :: l) = none := h
          have hrs : collectValues rs = none := by
            cases hc : collectValues rs with
            | none => rfl
            | some l => rw [hc] at h; cases h
          obtain ⟨x, hx1, hx2⟩ := ih.mp hrs
          exact ⟨x, List.mem_cons_of_mem r hx1, hx2⟩
        | none =>
          rw [hp] at h
          replace h : collectValues rs = none := h
          obtain ⟨x, hx1, hx2⟩ := ih.mp h
          exact ⟨x, List.mem_cons_of_mem r hx1, hx2⟩
    · rintro ⟨x, hx1, hx2⟩
      rcases List.mem_cons.mp hx1 with rfl | hxs
      · rw [collectValues, hx2]
      · rw [collectValues]
        cases hv : conv r.value with
        | none => rfl
        | some v =>
          have hrs : collectValues rs = none := ih.mpr ⟨x, hxs, hx2⟩
          cases hp : parse_date (r.time_iso8601.getD "") with
          | some d =>
            show (collectValues rs).map (fun l => (d, v) :: l) = none
            rw [hrs]
            rfl
          | none => exact hrs

theorem goodPairs_cons (r : CRow) (rs : List CRow) :
    goodPairs (r :: rs) =
      (match conv r.value, parse_date (r.time_iso8601.getD "") with
       | some v, some d => [(d, v)]
       | _, _ => []) ++ goodPairs rs := by
  rw [goodPairs, List.filterMap_cons, goodPairs]
  cases hv : conv r.value with
  | none => simp
  | some v =>
    cases hp : parse_date (r.time_iso8601.getD "") with
    | none => simp
    | some d => simp

theorem collectValues_eq_some (rows : List CRow)
    (h : ∀ r ∈ rows, (conv r.value).isSome = true) :
    collectValues rows = some (goodPairs rows) := by
  induction rows with
  | nil => rfl
  | cons r rs ih =>
    obtain ⟨v, hv⟩ := Option.isSome_iff_exists.mp (h r (List.mem_cons_self r rs))
    have ihs := ih (fun x hx => h x (List.mem_cons_of_mem r hx))
    rw [collectValues, hv, goodPairs_cons, hv]
    cases hp : parse_date (r.time_iso8601.getD "") with
    | some d =>
      show (collectValues rs).map (fun l => (d, v) :: l) = _
      rw [ihs]
      rfl
    | none => exact ihs

theorem goodPairs_filter_parseable (rows : List CRow) :
    goodPairs (rows.filter (fun r => (parse_date (r.time_iso8601.getD "")).isSome)) =
      goodPairs rows := by
  induction rows with
  | nil => rfl
  | cons r rs ih =>
    rw [List.filter_cons]
    cases hp : parse_date (r.time_iso8601.getD "") with
    | some d =>
      simp only [hp, Option.isSome_some, if_true]
      rw [goodPairs_cons, goodPairs_cons, ih]
    | none =>
      simp only [hp, Option.isSome_none, Bool.false_eq_true, if_false]
      rw [ih, goodPairs_cons, hp]
      cases hv : conv r.value with
      | none => simp
      | some v => simp

/-- C4 (amended): in the Cumulative Series Reader a row whose timestamp does
not parse is dropped row-wise (removing such rows changes nothing), but a
row whose value column is non-numeric makes `int(...)` raise, and since the
`try` block also wraps the whole post-processing, the reader then returns
empty series, zero current value and zero growth — not the result computed
from the well-formed rows alone.  No error surfaces to the caller in either
case (the embedding is a total function). -/
theorem read_cumulative_series_row_errors (now : DateTime) (days : Nat) (rows : List CRow) :
    ((∃ r ∈ rows, conv r.value = none) →
      read_cumulative_series now days rows = ([], 0, 0))
    ∧ ((∀ r ∈ rows, (conv r.value).isSome = true) →
      read_cumulative_series now days rows =
        read_cumulative_series now days
          (rows.filter (fun r => (parse_date (r.time_iso8601.getD "")).isSome))) := by
  constructor
  · intro h
    rw [read_cumulative_series, (collectValues_eq_none_iff rows).mpr h]
  · intro h
    have h2 : ∀ r ∈ rows.filter (fun r => (parse_date (r.time_iso8601.getD "")).isSome),
        (conv r.value).isSome = true :=
      fun r hr => h r (List.mem_of_mem_filter hr)
    rw [read_cumulative_series, read_cumulative_series, collectValues_eq_some rows h,
      collectValues_eq_some _ h2, goodPairs_filter_parseable]

/-- C4 counterexample: a two-row file with one well-formed row and one row
with a non-numeric value returns `([], 0, 0)`, whereas the well-formed rows
alone give `([5], 5, 5)` — the malformed-value row does not merely drop
itself. -/
theorem read_cumulative_series_abort_cx :
    read_cumulative_series ⟨2024, 1, 10, 0, 0, 0⟩ 90
        [⟨some "2024-01-01", some "5"⟩, ⟨some "2024-01-02", some "abc"⟩] = ([], 0, 0)
    ∧ read_cumulative_series ⟨2024, 1, 10, 0, 0, 0⟩ 90
        [⟨some "2024-01-01", some "5"⟩] = ([5], 5, 5)
    ∧ (([], 0, 0) : List Int × Int × Int) ≠ ([5], 5, 5) := by
  refine ⟨rfl, rfl, by decide⟩

theorem read_cumulative_series_row_errors_witness :
    read_cumulative_series ⟨2024, 1, 10, 0, 0, 0⟩ 90
        [⟨some "2024-01-01", some "5"⟩, ⟨some "bogus", some "7"⟩] =
      read_cumulative_series ⟨2024, 1, 10, 0, 0, 0⟩ 90
        ([⟨some "2024-01-01", some "5"⟩, ⟨some "bogus", some "7"⟩].filter
          (fun r => (parse_date (r.time_iso8601.getD "")).isSome)) :=
  (read_cumulative_series_row_errors ⟨2024, 1, 10, 0, 0, 0⟩ 90
    [⟨some "2024-01-01", some "5"⟩, ⟨some "bogus", some "7"⟩]).2 (by decide)

/-! ## C1 : the growth formula of the cumulative reader -/

theorem goodPairs_ne_nil (rows : List CRow)
    (hv : ∀ r ∈ rows, (conv r.value).isSome = true)
    (hp : ∃ r ∈ rows, (parse_date (r.time_iso8601.getD "")).isSome = true) :
    goodPairs rows ≠ [] := by
  obtain ⟨r, hr, hps⟩ := hp
  obtain ⟨d, hd⟩ := Option.isSome_iff_exists.mp hps
  obtain ⟨v, hvv⟩ := Option.isSome_iff_exists.mp (hv r hr)
  have hmem : (d, v) ∈ goodPairs rows :=
    List.mem_filterMap.mpr ⟨r, hr, by rw [hvv, hd]⟩
  exact List.ne_nil_of_mem hmem

theorem seriesCurrentGrowth_growth (cutoff : DateTime) (pairs : List (DateTime × Int))
    (h : pairs ≠ []) :
    (seriesCurrentGrowth cutoff pairs).2.2 = specGrowth cutoff pairs := by
  cases pairs with
  | nil => exact absurd rfl h
  | cons a l =>
    simp only [seriesCurrentGrowth, specGrowth]
    rw [List.getLast?_map, List.head?_map]
    cases hb : ((sortPairs (a :: l)).filter (fun p => dltb p.1 cutoff)).getLast? with
    | some b => rfl
    | none =>
      simp only [Option.map_none']
      cases hh : ((sortPairs (a :: l)).filter (fun p => dleb cutoff p.1)).head? with
      | some s0 => rfl
      | none => rfl

/-- C1: for every cumulative CSV input whose value column always converts
and which has at least one row with a parseable timestamp, the growth
returned by `read_cumulative_series` equals the spec's formula
(`specGrowth`): current value (value of the chronologically last row) minus
the value of the last row strictly before the cutoff; if no row lies
strictly before the cutoff, current minus the first in-window value, unless
that first in-window value equals the current value, in which case growth
is the current value itself. -/
theorem read_cumulative_series_growth (now : DateTime) (days : Nat) (rows : List CRow)
    (hv : ∀ r ∈ rows, (conv r.value).isSome = true)
    (hp : ∃ r ∈ rows, (parse_date (r.time_iso8601.getD "")).isSome = true) :
    (read_cumulative_series now days rows).2.2 =
      specGrowth (subDays now days) (goodPairs rows) := by
  rw [read_cumulative_series, collectValues_eq_some rows hv]
  exact seriesCurrentGrowth_growth (subDays now days) (goodPairs rows)
    (goodPairs_ne_nil rows hv hp)

theorem read_cumulative_series_growth_witness :
    (read_cumulative_series ⟨2024, 1, 10, 0, 0, 0⟩ 90
        [⟨some "2023-09-01", some "2"⟩, ⟨some "2024-01-01", some "5"⟩]).2.2 =
      specGrowth (subDays ⟨2024, 1, 10, 0, 0, 0⟩ 90)
        (goodPairs [⟨some "2023-09-01", some "2"⟩, ⟨some "2024-01-01", some "5"⟩]) :=
  read_cumulative_series_growth ⟨2024, 1, 10, 0, 0, 0⟩ 90
    [⟨some "2023-09-01", some "2"⟩, ⟨some "2024-01-01", some "5"⟩]
    (by decide) (by decide)

/-! ## C6 : permutation invariance of the cumulative reader -/

theorem map_fst_goodPairs (rows : List CRow)
    (h : ∀ r ∈ rows, (conv r.value).isSome = true) :
    (goodPairs rows).map Prod.fst =
      rows.filterMap (fun r => parse_date (r.time_iso8601.getD "")) := by
  induction rows with
  | nil => rfl
  | cons r rs ih =>
    obtain ⟨v, hv⟩ := Option.isSome_iff_exists.mp (h r (List.mem_cons_self r rs))
    have ihs := ih (fun x hx => h x (List.mem_cons_of_mem r hx))
    rw [goodPairs_cons, hv, List.filterMap_cons]
    cases hp : parse_date (r.time_iso8601.getD "") with
    | some d => simp [ihs]
    | none => simp [ihs]

theorem sorted_lt_of_sorted_le {l : List (DateTime × Int)} (hs : List.Sorted pairLE l)
    (hnd : (l.map Prod.fst).Nodup) : List.Sorted pairLT l := by
  have hnd' : (l.map Prod.fst).Pairwise (fun a b => a ≠ b) := hnd
  have hne : l.Pairwise (fun a b => a.1 ≠ b.1) := List.pairwise_map.mp hnd'
  exact (hs.and hne).imp (fun h => dltb_of_dleb_of_ne h.1 h.2)

theorem sortPairs_eq_of_perm (g1 g2 : List (DateTime × Int)) (hperm : g1.Perm g2)
    (hnd : (g1.map Prod.fst).Nodup) : sortPairs g1 = sortPairs g2 := by
  have hs1 : List.Sorted pairLE (sortPairs g1) := List.sorted_insertionSort pairLE g1
  have hs2 : List.Sorted pairLE (sortPairs g2) := List.sorted_insertionSort pairLE g2
  have hp1 : (sortPairs g1).Perm g1 := List.perm_insertionSort pairLE g1
  have hp2 : (sortPairs g2).Perm g2 := List.perm_insertionSort pairLE g2
  have hperm12 : (sortPairs g1).Perm (sortPairs g2) := hp1.trans (hperm.trans hp2.symm)
  have hnd1 : ((sortPairs g1).map Prod.fst).Nodup := ((hp1.map Prod.fst).nodup_iff).mpr hnd
  have hnd2' : (g2.map Prod.fst).Nodup := ((hperm.map Prod.fst).nodup_iff).mp hnd
  have hnd2 : ((sortPairs g2).map Prod.fst).Nodup := ((hp2.map Prod.fst).nodup_iff).mpr hnd2'
  exact List.eq_of_perm_of_sorted hperm12 (sorted_lt_of_sorted_le hs1 hnd1)
    (sorted_lt_of_sorted_le hs2 hnd2)

theorem seriesCurrentGrowth_congr (cutoff : DateTime) (p1 p2 : List (DateTime × Int))
    (h1 : p1 ≠ []) (h2 : p2 ≠ []) (hs : sortPairs p1 = sortPairs p2) :
    seriesCurrentGrowth cutoff p1 = seriesCurrentGrowth cutoff p2 := by
  cases p1 with
  | nil => exact absurd rfl h1
  | cons a l =>
    cases p2 with
    | nil => exact absurd rfl h2
    | cons b m =>
      simp only [seriesCurrentGrowth]
      rw [hs]

/-- C6: the three outputs of the Cumulative Series Reader are invariant
under any permutation of the input rows when all timestamps parse and the
parsed dates are pairwise distinct (values may be arbitrary): sorting by
date is internal, so current value, windowed series and growth do not
depend on file order. -/
theorem read_cumulative_series_perm_invariant (now : DateTime) (days : Nat)
    (l1 l2 : List CRow) (hperm : l1.Perm l2)
    (hp : ∀ r ∈ l1, (parse_date (r.time_iso8601.getD "")).isSome = true)
    (hnd : (l1.filterMap (fun r => parse_date (r.time_iso8601.getD ""))).Nodup) :
    read_cumulative_series now days l1 = read_cumulative_series now days l2 := by
  by_cases hb : ∀ r ∈ l1, (conv r.value).isSome = true
  · have hb2 : ∀ r ∈ l2, (conv r.value).isSome = true :=
      fun r hr => hb r (hperm.mem_iff.mpr hr)
    rw [read_cumulative_series, read_cumulative_series,
      collectValues_eq_some l1 hb, collectValues_eq_some l2 hb2]
    have hgp : (goodPairs l1).Perm (goodPairs l2) := hperm.filterMap _
    have hnd1 : ((goodPairs l1).map Prod.fst).Nodup := by
      rw [map_fst_goodPairs l1 hb]
      exact hnd
    cases hc1 : goodPairs l1 with
    | nil =>
      rw [hc1] at hgp
      rw [hgp.symm.eq_nil]
    | cons a l =>
      have h1 : goodPairs l1 ≠ [] := by rw [hc1]; exact List.cons_ne_nil a l
      have h2 : goodPairs l2 ≠ [] := by
        intro he
        rw [he] at hgp
        rw [hgp.eq_nil] at h1
        exact h1 rfl
      rw [← hc1]
      exact seriesCurrentGrowth_congr (subDays now days) (goodPairs l1) (goodPairs l2)
        h1 h2 (sortPairs_eq_of_perm (goodPairs l1) (goodPairs l2) hgp hnd1)
  · have hex : ∃ r ∈ l1, conv r.value = none := by
      rcases not_forall.mp hb with ⟨r, hr⟩
      obtain ⟨hmem, hcv⟩ := Classical.not_imp.mp hr
      cases hc : conv r.value with
      | some v => exact absurd (by rw [hc]; rfl) hcv
      | none => exact ⟨r, hmem, hc⟩
    have hex2 : ∃ r ∈ l2, conv r.value = none := by
      obtain ⟨r, hr, hc⟩ := hex
      exact ⟨r, hperm.mem_iff.mp hr, hc⟩
    rw [read_cumulative_series, read_cumulative_series,
      (collectValues_eq_none_iff l1).mpr hex, (collectValues_eq_none_iff l2).mpr hex2]

theorem read_cumulative_series_perm_invariant_witness :
    read_cumulative_series ⟨2024, 1, 10, 0, 0, 0⟩ 90
        [⟨some "2024-01-01", some "5"⟩, ⟨some "2023-09-01", some "2"⟩] =
      read_cumulative_series ⟨2024, 1, 10, 0, 0, 0⟩ 90
        [⟨some "2023-09-01", some "2"⟩, ⟨some "2024-01-01", some "5"⟩] :=
  read_cumulative_series_perm_invariant ⟨2024, 1, 10, 0, 0, 0⟩ 90
    [⟨some "2024-01-01", some "5"⟩, ⟨some "2023-09-01", some "2"⟩]
    [⟨some "2023-09-01", some "2"⟩, ⟨some "2024-01-01", some "5"⟩]
    (List.Perm.swap _ _ _) (by decide) (by decide)

/-! ## C2 : the date parser -/

theorem dv_dch (k : Nat) (h : k ≤ 9) : dv (dch k) = k := by
  interval_cases k <;> rfl

theorem isDigit_dch (k : Nat) : (dch k).isDigit = true := by
  match k with
  | 0 | 1 | 2 | 3 | 4 | 5 | 6 | 7 | 8 => rfl
  | n + 9 => rfl

theorem dch_ne_plus (k : Nat) : dch k ≠ '+' := by
  match k with
  | 0 | 1 | 2 | 3 | 4 | 5 | 6 | 7 | 8 => decide
  | n + 9 => show ('9' : Char) ≠ '+'; decide

theorem isWS_dch (k : Nat) : isWS (dch k) = false := by
  match k with
  | 0 | 1 | 2 | 3 | 4 | 5 | 6 | 7 | 8 => rfl
  | n + 9 => rfl

theorem pad2_cons (n : Nat) (r : List Char) :
    pad2 n ++ r = dch (n / 10) :: dch (n % 10) :: r := rfl

theorem pad4_cons (n : Nat) (r : List Char) :
    pad4 n ++ r = dch (n / 1000) :: dch (n / 100 % 10) :: dch (n / 10 % 10) :: dch (n % 10) :: r :=
  rfl

theorem findSome?_cons_eq (f : α → Option β) (a : α) (l : List α) :
    (a :: l).findSome? f = match f a with | some b => some b | none => l.findSome? f := rfl

theorem findSome?_nil_eq (f : α → Option β) : ([] : List α).findSome? f = none := rfl

theorem exists_of_fs {f : α → Option β} :
    ∀ {l : List α} {b : β}, l.findSome? f = some b → ∃ a ∈ l, f a = some b := by
  intro l
  induction l with
  | nil => intro b h; cases h
  | cons x xs ih =>
    intro b h
    rw [findSome?_cons_eq] at h
    cases hx : f x with
    | some v =>
      rw [hx] at h
      replace h : some v = some b := h
      exact ⟨x, List.mem_cons_self x xs, hx.trans h⟩
    | none =>
      rw [hx] at h
      replace h : xs.findSome? f = some b := h
      obtain ⟨a, ha, hfa⟩ := ih h
      exact ⟨a, List.mem_cons_of_mem x ha, hfa⟩

theorem yearC_cons (y : Nat) (hy : y ≤ 9999) (r : List Char) :
    yearC (dch (y / 1000) :: dch (y / 100 % 10) :: dch (y / 10 % 10) :: dch (y % 10) :: r) =
      [(y, r)] := by
  have e1 : y / 1000 ≤ 9 := by omega
  have e2 : y / 100 % 10 ≤ 9 := by omega
  have e3 : y / 10 % 10 ≤ 9 := by omega
  have e4 : y % 10 ≤ 9 := by omega
  simp only [yearC, isDigit_dch, dv_dch _ e1, dv_dch _ e2, dv_dch _ e3, dv_dch _ e4,
    true_and, and_self, if_true]
  have he : ((y / 1000 * 10 + y / 100 % 10) * 10 + y / 10 % 10) * 10 + y % 10 = y := by omega
  rw [he]

theorem monthC_head (mo : Nat) (h1 : 1 ≤ mo) (h2 : mo ≤ 12) :
    ∃ t : List Char → List (Nat × List Char),
      ∀ r, monthC (dch (mo / 10) :: dch (mo % 10) :: r) = (mo, r) :: t r := by
  interval_cases mo <;> exact ⟨_, fun r => rfl⟩

theorem dayC_head (d : Nat) (h1 : 1 ≤ d) (h2 : d ≤ 31) :
    ∃ t : List Char → List (Nat × List Char),
      ∀ r, dayC (dch (d / 10) :: dch (d % 10) :: r) = (d, r) :: t r := by
  interval_cases d <;> exact ⟨_, fun r => rfl⟩

theorem hourC_head (h : Nat) (hh : h ≤ 23) :
    ∃ t : List Char → List (Nat × List Char),
      ∀ r, hourC (dch (h / 10) :: dch (h % 10) :: r) = (h, r) :: t r := by
  interval_cases h <;> exact ⟨_, fun r => rfl⟩

theorem msC_head (n : Nat) (hn : n ≤ 59) :
    ∃ t : List Char → List (Nat × List Char),
      ∀ r, msC (dch (n / 10) :: dch (n % 10) :: r) = (n, r) :: t r := by
  interval_cases n <;> exact ⟨_, fun r => rfl⟩

theorem litC_self (c : Char) (r : List Char) : litC c (c :: r) = [((), r)] := by
  simp [litC]

theorem wsC_space_dch (k : Nat) (r : List Char) :
    wsC (' ' :: dch k :: r) = [((), dch k :: r)] := by
  simp [wsC, List.takeWhile_cons, List.dropWhile_cons, isWS_dch,
    show isWS ' ' = true from rfl]

theorem matchCore_fmtChars (y mo d h mi s : Nat)
    (hy : y ≤ 9999) (hmo1 : 1 ≤ mo) (hmo2 : mo ≤ 12) (hd1 : 1 ≤ d) (hd2 : d ≤ 31)
    (hh : h ≤ 23) (hmi : mi ≤ 59) (hs : s ≤ 59) :
    matchCore [] (fmtChars y mo d h mi s) = some ((y, mo, d, h, mi, s), []) := by
  obtain ⟨t1, hmoC⟩ := monthC_head mo hmo1 hmo2
  obtain ⟨t2, hdC⟩ := dayC_head d hd1 hd2
  obtain ⟨t3, hhC⟩ := hourC_head h hh
  obtain ⟨t4, hmiC⟩ := msC_head mi hmi
  obtain ⟨t5, hsC⟩ := msC_head s hs
  simp only [matchCore, fmtChars, pad2, pad4, List.cons_append, List.nil_append,
    yearC_cons y hy, findSome?_cons_eq, findSome?_nil_eq, litC_self, hmoC, hdC, hhC,
    hmiC, hsC, wsC_space_dch, litsC]

theorem matchDateOnly_dateChars (y mo d : Nat)
    (hy : y ≤ 9999) (hmo1 : 1 ≤ mo) (hmo2 : mo ≤ 12) (hd1 : 1 ≤ d) (hd2 : d ≤ 31) :
    matchDateOnly (dateChars y mo d) = some ((y, mo, d, 0, 0, 0), []) := by
  obtain ⟨t1, hmoC⟩ := monthC_head mo hmo1 hmo2
  obtain ⟨t2, hdC⟩ := dayC_head d hd1 hd2
  simp only [matchDateOnly, dateChars, pad2, pad4, List.cons_append, List.nil_append,
    yearC_cons y hy, findSome?_cons_eq, findSome?_nil_eq, litC_self, hmoC, hdC]

theorem tryFmt_eq_some (m : List Char → Option ((Nat × Nat × Nat × Nat × Nat × Nat) × List Char))
    (cs : List Char) (y mo d h mi s : Nat)
    (hm : m cs = some ((y, mo, d, h, mi, s), []))
    (hv : 1 ≤ y ∧ y ≤ 9999 ∧ 1 ≤ mo ∧ mo ≤ 12 ∧ 1 ≤ d ∧ d ≤ daysInMonth y mo ∧
      h ≤ 23 ∧ mi ≤ 59 ∧ s ≤ 59) :
    tryFmt m cs = some ⟨y, mo, d, h, mi, s⟩ := by
  rw [tryFmt, hm]
  show (if ([] : List Char) = [] then mkDT y mo d h mi s else none) = _
  rw [if_pos rfl, mkDT, if_pos hv]

theorem tryFmt_eq_none (m : List Char → Option ((Nat × Nat × Nat × Nat × Nat × Nat) × List Char))
    (cs : List Char) (hm : m cs = none) : tryFmt m cs = none := by
  rw [tryFmt, hm]

theorem stripPat_cons_ne_plus (c : Char) (rest : List Char) (hc : c ≠ '+') :
    stripPat (c :: rest) = c :: stripPat rest := by
  rw [stripPat.eq_def]
  split
  · rename_i heq
    injection heq with h1 _
    exact absurd h1 hc
  · rename_i heq
    injection heq with h1 h2
    rw [h1, h2]
  · rename_i heq
    cases heq

theorem stripPat_no_plus : ∀ cs : List Char, '+' ∉ cs → stripPat cs = cs
  | [], _ => rfl
  | c :: rest, h => by
    have hc : c ≠ '+' := fun he => h (he ▸ List.mem_cons_self c rest)
    have hr : '+' ∉ rest := fun hm => h (List.mem_cons_of_mem c hm)
    rw [stripPat_cons_ne_plus c rest hc, stripPat_no_plus rest hr]

theorem stripPat_append_tz : ∀ cs : List Char, '+' ∉ cs →
    stripPat (cs ++ tzChars) = cs
  | [], _ => rfl
  | c :: rest, h => by
    have hc : c ≠ '+' := fun he => h (he ▸ List.mem_cons_self c rest)
    have hr : '+' ∉ rest := fun hm => h (List.mem_cons_of_mem c hm)
    rw [List.cons_append, stripPat_cons_ne_plus c _ hc, stripPat_append_tz rest hr]

theorem plus_not_mem_fmtChars (y mo d h mi s : Nat) : '+' ∉ fmtChars y mo d h mi s := by
  intro hm
  simp only [fmtChars, pad2, pad4, List.cons_append, List.nil_append, List.mem_cons,
    List.not_mem_nil, or_false] at hm
  rcases hm with h | h | h | h | h | h | h | h | h | h | h | h | h | h | h | h | h | h | h <;>
    first
      | exact dch_ne_plus _ h.symm
      | exact absurd h (by decide)

theorem plus_not_mem_dateChars (y mo d : Nat) : '+' ∉ dateChars y mo d := by
  intro hm
  simp only [dateChars, pad2, pad4, List.cons_append, List.nil_append, List.mem_cons,
    List.not_mem_nil, or_false] at hm
  rcases hm with h | h | h | h | h | h | h | h | h | h <;>
    first
      | exact dch_ne_plus _ h.symm
      | exact absurd h (by decide)

theorem matchCore_dateChars_none (t : List Char) (y mo d : Nat) (hy : y ≤ 9999)
    (hmo1 : 1 ≤ mo) (hmo2 : mo ≤ 12) (hd1 : 1 ≤ d) (hd2 : d ≤ 31) :
    matchCore t (dateChars y mo d) = none := by
  simp only [matchCore, dateChars, pad2, pad4, List.cons_append, List.nil_append,
    yearC_cons y hy, findSome?_cons_eq, findSome?_nil_eq, litC_self]
  interval_cases mo <;> interval_cases d <;> rfl

theorem daysInMonth_le (y mo : Nat) : daysInMonth y mo ≤ 31 := by
  rw [daysInMonth]
  split_ifs <;> omega

theorem fmtChars_ne_nil (y mo d h mi s : Nat) : fmtChars y mo d h mi s ≠ [] := by
  simp [fmtChars, pad2, pad4]

theorem dateChars_ne_nil (y mo d : Nat) : dateChars y mo d ≠ [] := by
  simp [dateChars, pad2, pad4]

theorem parse_date_fmtFull (y mo d h mi s : Nat)
    (hy1 : 1 ≤ y) (hy2 : y ≤ 9999) (hmo1 : 1 ≤ mo) (hmo2 : mo ≤ 12)
    (hd1 : 1 ≤ d) (hd2 : d ≤ daysInMonth y mo) (hh : h ≤ 23) (hmi : mi ≤ 59) (hs : s ≤ 59) :
    parse_date (fmtFull y mo d h mi s) = some ⟨y, mo, d, h, mi, s⟩ := by
  have hd31 : d ≤ 31 := le_trans hd2 (daysInMonth_le y mo)
  have hne : fmtFull y mo d h mi s ≠ "" :=
    fun he => fmtChars_ne_nil y mo d h mi s (congrArg String.data he)
  have hstrip : stripPat (fmtFull y mo d h mi s).data = fmtChars y mo d h mi s :=
    stripPat_no_plus _ (plus_not_mem_fmtChars y mo d h mi s)
  unfold parse_date
  rw [if_neg hne, hstrip,
    tryFmt_eq_some (matchCore []) _ y mo d h mi s
      (matchCore_fmtChars y mo d h mi s hy2 hmo1 hmo2 hd1 hd31 hh hmi hs)
      ⟨hy1, hy2, hmo1, hmo2, hd1, hd2, hh, hmi, hs⟩]

theorem parse_date_fmtFullTZ (y mo d h mi s : Nat)
    (hy1 : 1 ≤ y) (hy2 : y ≤ 9999) (hmo1 : 1 ≤ mo) (hmo2 : mo ≤ 12)
    (hd1 : 1 ≤ d) (hd2 : d ≤ daysInMonth y mo) (hh : h ≤ 23) (hmi : mi ≤ 59) (hs : s ≤ 59) :
    parse_date (fmtFullTZ y mo d h mi s) = some ⟨y, mo, d, h, mi, s⟩ := by
  have hd31 : d ≤ 31 := le_trans hd2 (daysInMonth_le y mo)
  have hne : fmtFullTZ y mo d h mi s ≠ "" := by
    intro he
    have := congrArg String.data he
    replace this : fmtChars y mo d h mi s ++ tzChars = [] := this
    rcases List.append_eq_nil.mp this with ⟨h1, _⟩
    exact fmtChars_ne_nil y mo d h mi s h1
  have hstrip : stripPat (fmtFullTZ y mo d h mi s).data = fmtChars y mo d h mi s :=
    stripPat_append_tz _ (plus_not_mem_fmtChars y mo d h mi s)
  unfold parse_date
  rw [if_neg hne, hstrip,
    tryFmt_eq_some (matchCore []) _ y mo d h mi s
      (matchCore_fmtChars y mo d h mi s hy2 hmo1 hmo2 hd1 hd31 hh hmi hs)
      ⟨hy1, hy2, hmo1, hmo2, hd1, hd2, hh, hmi, hs⟩]

theorem parse_date_fmtDate (y mo d : Nat)
    (hy1 : 1 ≤ y) (hy2 : y ≤ 9999) (hmo1 : 1 ≤ mo) (hmo2 : mo ≤ 12)
    (hd1 : 1 ≤ d) (hd2 : d ≤ daysInMonth y mo) :
    parse_date (fmtDate y mo d) = some ⟨y, mo, d, 0, 0, 0⟩ := by
  have hd31 : d ≤ 31 := le_trans hd2 (daysInMonth_le y mo)
  have hne : fmtDate y mo d ≠ "" :=
    fun he => dateChars_ne_nil y mo d (congrArg String.data he)
  have hstrip : stripPat (fmtDate y mo d).data = dateChars y mo d :=
    stripPat_no_plus _ (plus_not_mem_dateChars y mo d)
  have hfail : tryFmt (matchCore []) (dateChars y mo d) = none :=
    tryFmt_eq_none _ _ (matchCore_dateChars_none [] y mo d hy2 hmo1 hmo2 hd1 hd31)
  have hfailtz : tryFmt (matchCore tzChars) (dateChars y mo d) = none :=
    tryFmt_eq_none _ _ (matchCore_dateChars_none tzChars y mo d hy2 hmo1 hmo2 hd1 hd31)
  have hok : tryFmt matchDateOnly (dateChars y mo d) = some ⟨y, mo, d, 0, 0, 0⟩ :=
    tryFmt_eq_some matchDateOnly _ y mo d 0 0 0
      (matchDateOnly_dateChars y mo d hy2 hmo1 hmo2 hd1 hd31)
      ⟨hy1, hy2, hmo1, hmo2, hd1, hd2, by omega, by omega, by omega⟩
  unfold parse_date
  rw [if_neg hne, hstrip, hfail, hfailtz, hok]

/-- C2 (amended): the parser accepts the literal `+00:00` offset variant,
the offset-free variant and the bare date — for all valid calendar
components, rendering in any of these three shapes parses back to exactly
the encoded date/time (a bare date gets midnight) — and the empty string
yields `none` rather than raising (the embedding is total).  Arbitrary
nonzero UTC offsets are NOT accepted (see the counterexample): the source
strips `%z` from the first format and deletes only literal `"+00:00"`
substrings. -/
theorem parse_date_formats (y mo d h mi s : Nat)
    (hy1 : 1 ≤ y) (hy2 : y ≤ 9999) (hmo1 : 1 ≤ mo) (hmo2 : mo ≤ 12)
    (hd1 : 1 ≤ d) (hd2 : d ≤ daysInMonth y mo) (hh : h ≤ 23) (hmi : mi ≤ 59) (hs : s ≤ 59) :
    parse_date (fmtFullTZ y mo d h mi s) = some ⟨y, mo, d, h, mi, s⟩
    ∧ parse_date (fmtFull y mo d h mi s) = some ⟨y, mo, d, h, mi, s⟩
    ∧ parse_date (fmtDate y mo d) = some ⟨y, mo, d, 0, 0, 0⟩
    ∧ parse_date "" = none :=
  ⟨parse_date_fmtFullTZ y mo d h mi s hy1 hy2 hmo1 hmo2 hd1 hd2 hh hmi hs,
   parse_date_fmtFull y mo d h mi s hy1 hy2 hmo1 hmo2 hd1 hd2 hh hmi hs,
   parse_date_fmtDate y mo d hy1 hy2 hmo1 hmo2 hd1 hd2, rfl⟩

/-- C2 counterexample: a timestamp with a nonzero UTC offset — in the
claimed format `YYYY-MM-DD HH:MM:SS±HH:MM` — is rejected, while the same
instant with the literal `+00:00` suffix parses; the first format's `%z` is
stripped by `fmt.replace("%z", "")` before `strptime` runs. -/
theorem parse_date_offset_cx :
    parse_date "2024-01-02 03:04:05+05:30" = none
    ∧ parse_date "2024-01-02 03:04:05+00:00" = some ⟨2024, 1, 2, 3, 4, 5⟩ := ⟨rfl, rfl⟩

theorem parse_date_formats_witness :
    parse_date (fmtFullTZ 2024 1 2 3 4 5) = some ⟨2024, 1, 2, 3, 4, 5⟩
    ∧ parse_date (fmtFull 2024 1 2 3 4 5) = some ⟨2024, 1, 2, 3, 4, 5⟩
    ∧ parse_date (fmtDate 2024 1 2) = some ⟨2024, 1, 2, 0, 0, 0⟩
    ∧ parse_date "" = none :=
  parse_date_formats 2024 1 2 3 4 5 (by decide) (by decide) (by decide) (by decide)
    (by decide) (by decide) (by decide) (by decide) (by decide)
